import Mathlib

/-!
Verification of the manifest compiler `scripts/compile_manifests.py` of the
fleet-manager-gitops repository.

The compiler is a pure transformation from a parsed Container Definition
document plus an optional Runtime Configuration document to an Application
manifest with an embedded cloud-init `user_data` script.  We embed the parsed
YAML documents as Lean structures and the compiler functions
(`to_application`, `_container_quadlet_user_data`, `_meta_data`, and the batch
loop of `main`) as Lean functions, line by line from the source.

Modelling conventions (documented once here):

* Python dictionaries whose key set is open (the `cloudInit` mappings, the
  `disk` mappings, the output directory of the batch run) are embedded as
  association lists `List (String × α)` in which a later entry shadows an
  earlier one; `dget` looks a key up from the right.  Under this convention
  Python's `d[k] = v` and `d.update(e)` are list append, which is
  observationally equal (with respect to every lookup the program performs)
  to CPython's insertion-ordered dictionaries.  The program never iterates
  over keys of these open dictionaries, so this coincidence is exact.
* Python dictionaries whose key set is closed (a document's `metadata`,
  `spec`, a user entry, a container entry, the `policies` block, ...) are
  embedded as structures whose fields are `Option`-valued exactly where the
  code distinguishes a missing key from a present one (`x in d`, `d.get(k)`,
  `d.get(k, default)`).
* Python truthiness is modelled field by field: a string is truthy iff
  nonempty, an integer iff nonzero, a list iff nonempty; for scalar fields
  whose downstream use only depends on truthiness (the `policies` flags, the
  `ssh` booleans) the field is an `Option Bool` recording presence and
  truthiness of the value.  For `runtime.vcpus`/`runtime.memory` in the
  Runtime Configuration a present-but-null key behaves differently from an
  absent key in `dict.get(k, default)`, so those fields are doubly optional.
* `f"...{x}..."` interpolation of a possibly-missing value renders Python's
  `str(None) == "None"`; `pyStr?` below reproduces that.
* Input parsing (`yaml.safe_load`) is not embedded; a batch input file is
  modelled as its parse outcome, `Except Unit ContainerDef`.  An uncaught
  exception in the Python loop is modelled by the short-circuiting of
  `runBatch`.
-/

/-! ## Association lists with Python dictionary lookup semantics -/

/-- Right-most binding of a key in an association list (a later entry shadows
an earlier one, matching repeated `d[k] = v` updates of a Python dict). -/
def dget {α : Type} : List (String × α) → String → Option α
  | [], _ => none
  | (k', v) :: t, k =>
    match dget t k with
    | some w => some w
    | none => if k' = k then some v else none

/-- Python `d.get(k, default)`. -/
def dgetD {α : Type} (d : List (String × α)) (k : String) (v : α) : α :=
  (dget d k).getD v

/-! ## Small Python-semantics helpers -/

/-- Python `str(x)` for an optional string value: a missing value prints as
the literal text `None`. -/
def pyStr? : Option String → String
  | some s => s
  | none => "None"

/-- Python truthiness of an optional string (`None` and `""` are falsy). -/
def pyTruthyS : Option String → Bool
  | some s => s ≠ ""
  | none => false

/-- Python truthiness of an optional integer (`None` and `0` are falsy). -/
def pyTruthyI : Option Int → Bool
  | some n => n ≠ 0
  | none => false

/-- Python `a or b` on two optional strings (used for `imageUrl or url`). -/
def pyOrS (a b : Option String) : Option String :=
  if pyTruthyS a then a else b

/-- Python `'true' if v else 'false'` rendering of a boolean. -/
def pyBool (b : Bool) : String := if b then "true" else "false"

/-- Split a character list at newline characters. -/
def splitNl : List Char → List (List Char)
  | [] => [[]]
  | c :: t =>
    if c = '\n' then [] :: splitNl t
    else
      match splitNl t with
      | h :: r => (c :: h) :: r
      | [] => [[c]]

/-- Python `str.splitlines()` restricted to `'\n'` separators: the pieces of
the string between newlines, without a final empty piece when the string ends
in a newline, and `[]` for the empty string. -/
def pySplitlines (s : String) : List String :=
  if s.data = [] then []
  else if s.data.getLast? = some '\n' then ((splitNl s.data).dropLast).map String.mk
  else (splitNl s.data).map String.mk

/-- Python `", ".join(xs)`. -/
def joinComma : List String → String
  | [] => ""
  | [x] => x
  | x :: y :: t => x ++ ", " ++ joinComma (y :: t)

/-- Python `"\n".join(xs)`. -/
def joinNl : List String → String
  | [] => ""
  | [x] => x
  | x :: y :: t => x ++ "\n" ++ joinNl (y :: t)

/-! ## The parsed input documents -/

/-- One entry of a `users:` sequence (closed-key Python dict as read by
`_container_quadlet_user_data`). -/
structure UserCfg where
  name : Option String := none
  groups : List String := []
  sudo' : Option String := none
  shell : Option String := none
  sshAuthorizedKeys : List String := []
  deriving DecidableEq

/-- A `chpasswd` mapping: `list` present iff `some`, `expire` present with the
truthiness of its value. -/
structure ChpasswdCfg where
  list : Option String := none
  expire : Option Bool := none
  deriving DecidableEq

/-- Python truthiness of a `chpasswd` dict (nonempty mapping). -/
def chpasswdTruthy : Option ChpasswdCfg → Bool
  | some c => c.list.isSome || c.expire.isSome
  | none => false

/-- A value stored in a `cloudInit` mapping.  The generator inspects the
runtime type of the values it reads (`isinstance(..., list)`,
`isinstance(..., dict)`), so the constructor records it; `other` stands for
any value the generator does not render. -/
inductive CIVal where
  /-- an `ssh` mapping: each field records key presence and value truthiness -/
  | ssh (passwordAuth : Option Bool) (disableRoot : Option Bool)
  /-- a `users` list value -/
  | users (us : List UserCfg)
  /-- a `chpasswd` mapping value -/
  | chpasswd (c : ChpasswdCfg)
  /-- any other value (never rendered by the generator) -/
  | other (tag : String)
  deriving DecidableEq

/-- A `cloudInit` mapping: an open-key dictionary. -/
abbrev CloudInit : Type := List (String × CIVal)

/-- One entry of the `content:` sequence of a Container Definition. -/
structure ContentItem where
  path : Option String := none
  mode : Option String := none
  data : String := ""
  deriving DecidableEq

/-- A mount of a container spec. -/
structure MountCfg where
  hostPath : Option String := none
  mountPath : Option String := none
  selinuxRelabel : Bool := false
  deriving DecidableEq

/-- An environment entry of a container spec. -/
structure EnvVar where
  name : Option String := none
  value : Option String := none
  deriving DecidableEq

/-- One entry of the `containers:` sequence of a Container Definition. -/
structure ContainerCfg where
  name : Option String := none
  image : Option String := none
  ports : List String := []
  mounts : List MountCfg := []
  env : List EnvVar := []
  deriving DecidableEq

/-- A `runtime` mapping (`vcpus`, `memory`, `disk`).  For `vcpus`/`memory`
the outer `Option` is key presence and the inner `Option` distinguishes a
null value, because `d.get('vcpus', 2)` returns the default only when the key
is absent.  The `disk` value is normalized through `... or {}` by the code,
which collapses absent, null and empty to the empty mapping. -/
structure RuntimeMap where
  vcpus : Option (Option Int) := none
  memory : Option (Option String) := none
  disk : List (String × String) := []
  deriving DecidableEq

/-- The `policies` mapping of a Runtime Configuration: each field records key
presence and value truthiness (`pol.get(k, True)`). -/
structure Policies where
  enablePodmanSocket : Option Bool := none
  enableAutoUpdateTimer : Option Bool := none
  setupQemuGuestAgent : Option Bool := none
  rebootAfterQga : Option Bool := none
  autoUpdateLabel : Option Bool := none
  deriving DecidableEq

/-- A `network` entry of a Runtime Configuration. -/
structure NetworkCfg where
  name : Option String := none
  type : Option String := none
  deriving DecidableEq

/-- The `spec` of a Runtime Configuration document. -/
structure RuntimeSpec where
  runtime : RuntimeMap := {}
  network : List NetworkCfg := []
  vmState : Option String := none
  policies : Policies := {}
  cloudInit : Option CloudInit := none
  deriving DecidableEq

/-- A Runtime Configuration document; `none` models a falsy/absent document
(`runtime_def` empty), in which case every accessor in `to_application`
takes its documented default. -/
abbrev RuntimeDef : Type := Option RuntimeSpec

/-- The `metadata` of a Container Definition. -/
structure Metadata where
  name : Option String := none
  labels : List String := []
  clusterGroups : List String := []
  deriving DecidableEq

/-- The `spec` of a Container Definition.  `cloudInit = none` models an
absent or null mapping and `some d` a present mapping `d` (possibly empty);
the distinction matters because `ct_cloud = ...get('cloudInit') or {}`
aliases the container's own mapping exactly when it is truthy. -/
structure ContainerSpec where
  runtime : RuntimeMap := {}
  containers : List ContainerCfg := []
  content : List ContentItem := []
  cloudInit : Option CloudInit := none
  users : List UserCfg := []
  chpasswd : Option ChpasswdCfg := none
  deriving DecidableEq

/-- A Container Definition document. -/
structure ContainerDef where
  metadata : Metadata := {}
  spec : ContainerSpec := {}
  deriving DecidableEq

/-! ## The output Application manifest -/

/-- An asset of the Application manifest (`spec.assets[0]` of the output). -/
structure Asset where
  name : String
  type : String
  format : String
  url : Option String
  deriving DecidableEq

/-- A storage device of the `virdomain` resource. -/
structure StorageDevice where
  name : String
  type : String
  source : String
  boot : Int
  capacity : String
  deriving DecidableEq

/-- A network device of the `virdomain` resource. -/
structure NetworkDevice where
  name : String
  type : String
  deriving DecidableEq

/-- The `cloud_init_data` block of the `virdomain` resource.  In the Python
dict the `user_data` slot holds a placeholder that the serializer in `main`
replaces by the rendered script; the written document carries the rendered
script, which is what this field holds. -/
structure CloudInitData where
  user_data : String
  meta_data : String
  deriving DecidableEq

/-- The `spec` of the `virdomain` resource. -/
structure VirdomainSpec where
  cpu : Option Int
  memory : Option String
  storage_devices : List StorageDevice
  network_devices : List NetworkDevice
  tags : List String
  state : String
  cloud_init_data : CloudInitData
  deriving DecidableEq

/-- A resource of the Application manifest. -/
structure Resource where
  type : String
  name : Option String
  spec : VirdomainSpec
  deriving DecidableEq

/-- The output metadata block. -/
structure AppMetadata where
  name : Option String
  clusterGroups : List String
  labels : List String
  deriving DecidableEq

/-- The `spec` of the Application manifest. -/
structure AppSpec where
  assets : List Asset
  resources : List Resource
  deriving DecidableEq

/-- The Application manifest produced by `to_application`. -/
structure Application where
  version : String
  type : String
  metadata : AppMetadata
  spec : AppSpec
  deriving DecidableEq

/-! ## The cloud-init user-data generator (`_container_quadlet_user_data`) -/

/-- One optional boolean line: emitted only when the key is present, with
the truthiness of its value rendered by `pyBool`. -/
def boolLine (front : String) (o : Option Bool) : List String :=
  match o with
  | some b => [front ++ pyBool b]
  | none => []

/-- Lines 144-148 of the source: optional `ssh_pwauth` / `disable_root`
lines, emitted when the corresponding key is present in the `ssh` mapping. -/
def sshLines (ci : CloudInit) : List String :=
  match dget ci "ssh" with
  | some (CIVal.ssh pa dr) =>
      boolLine "ssh_pwauth: " pa ++ boolLine "disable_root: " dr
  | _ => []

/-- Lines 154-168 of the source: the block of lines for one user entry. -/
def userBlock (u : UserCfg) : List String :=
  ["  - name: " ++ pyStr? u.name] ++
  (if u.groups ≠ [] then ["    groups: [" ++ joinComma u.groups ++ "]"] else []) ++
  (if pyTruthyS u.sudo' then ["    sudo: " ++ pyStr? u.sudo'] else []) ++
  (if pyTruthyS u.shell then ["    shell: " ++ pyStr? u.shell] else []) ++
  (if u.sshAuthorizedKeys ≠ [] then
    ["    ssh-authorized-keys:"] ++ u.sshAuthorizedKeys.map (fun key => "      - " ++ key)
  else [])

/-- Line 151 of the source: the users list, empty unless the `users` value is
a list. -/
def usersOf (ci : CloudInit) : List UserCfg :=
  match dget ci "users" with
  | some (CIVal.users us) => us
  | _ => []

/-- Lines 151-168 of the source: the `users:` block. -/
def usersLines (ci : CloudInit) : List String :=
  let us := usersOf ci
  if us ≠ [] then "users:" :: us.flatMap userBlock else []

/-- Lines 178-181 of the source: the `list: |` literal block of `chpasswd`,
emitted only when the `list` key is present. -/
def chpasswdListBlock (o : Option String) : List String :=
  match o with
  | some s => ["  list: |"] ++ (pySplitlines s).map (fun ln => "    " ++ ln)
  | none => []

/-- Lines 175-183 of the source: the `chpasswd:` block, emitted when the
`chpasswd` value is a mapping. -/
def chpasswdLines (ci : CloudInit) : List String :=
  match dget ci "chpasswd" with
  | some (CIVal.chpasswd c) =>
      ["chpasswd:"] ++ chpasswdListBlock c.list ++ boolLine "  expire: " c.expire
  | _ => []

/-- Lines 206-214 of the source: the heredoc block writing one `content`
item. -/
def contentBlock (item : ContentItem) : List String :=
  ["  - |",
   "    cat <<'EOF' > " ++ pyStr? item.path] ++
  (pySplitlines item.data).map (fun ln => "    " ++ ln) ++
  ["    EOF",
   "    chmod " ++ (item.mode.getD "0644") ++ " " ++ pyStr? item.path]

/-- Lines 216-241 of the source: the heredoc block writing one quadlet
`.container` unit. -/
def containerBlock (autoUpdateLabel : Bool) (c : ContainerCfg) : List String :=
  ["  - |",
   "    cat <<'EOF' > /etc/containers/systemd/" ++ c.name.getD "app" ++ ".container",
   "    [Container]",
   "    Image=" ++ pyStr? c.image] ++
  c.ports.map (fun p => "    PublishPort=" ++ p) ++
  c.mounts.map (fun m =>
    "    Volume=" ++ pyStr? m.hostPath ++ ":" ++ pyStr? m.mountPath ++
      (if m.selinuxRelabel then ":Z" else "")) ++
  c.env.map (fun e => "    Environment=" ++ pyStr? e.name ++ "=" ++ pyStr? e.value) ++
  (if autoUpdateLabel then ["    Label=io.containers.autoupdate=registry"] else []) ++
  ["",
   "    [Install]",
   "    WantedBy=multi-user.target",
   "    EOF"]

/-- Line 245 of the source: the restart command for one container. -/
def restartLine (c : ContainerCfg) : String :=
  "  - systemctl restart " ++ c.name.getD "app" ++ ".service"

/-- Lines 249-273 of the source: the guest-agent commands appended when the
`setupQemuGuestAgent` policy is enabled (everything of the block except the
conditional trailing `reboot`). -/
def qgaCmds : List String :=
  ["  - transactional-update --non-interactive pkg install qemu-guest-agent || true",
   "  - mkdir -p /etc/systemd/system",
   "  - |",
   "    cat <<'EOF' > /etc/systemd/system/enable-qemu-guest-agent.service",
   "    [Unit]",
   "    Description=Enable qemu-guest-agent post-reboot",
   "    After=multi-user.target",
   "",
   "    [Service]",
   "    Type=oneshot",
   "    ExecStart=/usr/bin/systemctl enable --now qemu-guest-agent.service",
   "    RemainAfterExit=yes",
   "",
   "    [Install]",
   "    WantedBy=multi-user.target",
   "    EOF",
   "  - systemctl enable enable-qemu-guest-agent.service || true",
   "  - mkdir -p /etc/systemd/system/qemu-guest-agent.service.d",
   "  - |",
   "    cat <<'EOF' > /etc/systemd/system/qemu-guest-agent.service.d/override.conf",
   "    [Unit]",
   "    Requires=",
   "    After=",
   "    EOF"]

/-- The resolved policy flags of lines 192-197 of the source
(`pol.get(key, True)`). -/
def resolvedFlag (o : Option Bool) : Bool := o.getD true

/-- The full line list built by `_container_quadlet_user_data`
(lines 137-276 of the source): each `++` segment below is, in order, one
batch of `lines.append`/`lines.extend` calls of the Python function. -/
def userDataLines (containers : List ContainerCfg) (content : List ContentItem)
    (cloud_init : CloudInit) (policies : Policies) : List String :=
  ["#cloud-config"] ++
  sshLines cloud_init ++
  usersLines cloud_init ++
  chpasswdLines cloud_init ++
  ["write_files: []", "runcmd:"] ++
  (if resolvedFlag policies.enablePodmanSocket then
    ["  - systemctl enable podman.socket"] else []) ++
  (if resolvedFlag policies.enableAutoUpdateTimer then
    ["  - systemctl enable --now podman-auto-update.timer"] else []) ++
  ["  - mkdir -p /etc/containers/systemd",
   "  - mkdir -p /var/edge/www"] ++
  content.flatMap contentBlock ++
  containers.flatMap (containerBlock (resolvedFlag policies.autoUpdateLabel)) ++
  ["  - systemctl daemon-reload"] ++
  containers.map restartLine ++
  (if resolvedFlag policies.setupQemuGuestAgent then
    qgaCmds ++ (if resolvedFlag policies.rebootAfterQga then ["  - reboot"] else [])
  else [])

/-- The function `_container_quadlet_user_data` itself, returning
`"\n".join(lines) + "\n"` (line 277 of the source). -/
def container_quadlet_user_data (containers : List ContainerCfg)
    (content : List ContentItem) (cloud_init : CloudInit)
    (policies : Policies) : String :=
  joinNl (userDataLines containers content cloud_init policies) ++ "\n"

/-- The function `_meta_data` (lines 280-282 of the source). -/
def meta_data (name : Option String) : String :=
  let hostname := if pyTruthyS name then pyStr? name else "vm"
  "dsmode: local\nlocal-hostname: \"" ++ hostname ++ "\"\n"

/-! ## The settings merge and manifest assembly (`to_application`) -/

/-- Variable `runtime_defaults` (line 47 of the source): the runtime mapping of the
Runtime Configuration, empty when the document is falsy. -/
def runtime_defaults (rd : RuntimeDef) : RuntimeMap :=
  match rd with
  | some sp => sp.runtime
  | none => {}

/-- Python `d.get('vcpus', 2)`-style lookup on a doubly optional scalar: the default
applies only when the key is absent, a present null is returned as such. -/
def getKeyD {α : Type} (o : Option (Option α)) (d : α) : Option α :=
  match o with
  | some x => x
  | none => some d

/-- Python `a or b` for an optional integer on the left. -/
def pyOrI (a b : Option Int) : Option Int :=
  if pyTruthyI a then a else b

/-- Python `a or b` for optional strings where the right side is the
already-computed default. -/
def pyOrS' (a b : Option String) : Option String :=
  if pyTruthyS a then a else b

/-- Line 57 of the source:
`vcpus = container_runtime.get('vcpus') or runtime_defaults.get('vcpus', 2)`. -/
def vcpus (cd : ContainerDef) (rd : RuntimeDef) : Option Int :=
  pyOrI cd.spec.runtime.vcpus.join (getKeyD (runtime_defaults rd).vcpus 2)

/-- Line 58 of the source:
`memory = container_runtime.get('memory') or runtime_defaults.get('memory', '2Gi')`. -/
def memory (cd : ContainerDef) (rd : RuntimeDef) : Option String :=
  pyOrS' cd.spec.runtime.memory.join (getKeyD (runtime_defaults rd).memory "2Gi")

/-- Line 61 of the source: `merged_disk = {**disk_cfg_defaults, **disk_cfg_overrides}`,
the container disk mapping shadowing the runtime one key by key. -/
def merged_disk (cd : ContainerDef) (rd : RuntimeDef) : List (String × String) :=
  (runtime_defaults rd).disk ++ cd.spec.runtime.disk

/-- Line 62 of the source. -/
def disk_name (cd : ContainerDef) (rd : RuntimeDef) : String :=
  dgetD (merged_disk cd rd) "name" "rootdisk"

/-- Line 63 of the source. -/
def disk_capacity (cd : ContainerDef) (rd : RuntimeDef) : String :=
  dgetD (merged_disk cd rd) "capacity" "40Gi"

/-- Line 64 of the source:
`disk_image = merged_disk.get('imageUrl') or merged_disk.get('url')`. -/
def disk_image (cd : ContainerDef) (rd : RuntimeDef) : Option String :=
  pyOrS (dget (merged_disk cd rd) "imageUrl") (dget (merged_disk cd rd) "url")

/-- Line 65 of the source. -/
def disk_format (cd : ContainerDef) (rd : RuntimeDef) : String :=
  dgetD (merged_disk cd rd) "format" "raw"

/-- Lines 75-78 of the source: the entries written into `ct_cloud` for the
top-level convenience fields, in assignment order (`users` first, then
`chpasswd`), each only when its value is truthy. -/
def convenienceEntries (spec : ContainerSpec) : CloudInit :=
  (if spec.users ≠ [] then [("users", CIVal.users spec.users)] else []) ++
  (match spec.chpasswd with
   | some c =>
     if c.list.isSome || c.expire.isSome then [("chpasswd", CIVal.chpasswd c)] else []
   | none => [])

/-- Variable `rc_cloud` (line 72 of the source). -/
def rc_cloud (rd : RuntimeDef) : CloudInit :=
  match rd with
  | some sp => sp.cloudInit.getD []
  | none => []

/-- Variable `ct_cloud` after the convenience-field assignments (lines 73-78 of the
source): the container's own mapping followed by the shadowing assignments. -/
def ct_cloud (cd : ContainerDef) : CloudInit :=
  cd.spec.cloudInit.getD [] ++ convenienceEntries cd.spec

/-- Variable `merged_cloud_init` (lines 71, 80, 81 of the source): an empty dict
updated first with `ct_cloud`, then with `rc_cloud` — the runtime mapping is
applied last and wins per key. -/
def merged_cloud_init (cd : ContainerDef) (rd : RuntimeDef) : CloudInit :=
  ([] ++ ct_cloud cd) ++ rc_cloud rd

/-- The state of the Container Definition document after `to_application`
returns.  The assignments `ct_cloud['users'] = ...` / `ct_cloud['chpasswd'] = ...`
(lines 76, 78 of the source) write through to the container's own `cloudInit`
mapping exactly when `ct_cloud` aliases it, i.e. when
`container_def['spec']['cloudInit']` is a truthy (present, non-empty) mapping;
otherwise `ct_cloud` is the fresh dict produced by `... or {}` and the
document is untouched.  Nothing else in `to_application` writes to either
input document. -/
def containerDefAfter (cd : ContainerDef) : ContainerDef :=
  match cd.spec.cloudInit with
  | some d =>
    if d ≠ [] then
      { cd with spec := { cd.spec with cloudInit := some (d ++ convenienceEntries cd.spec) } }
    else cd
  | none => cd

/-- The policies mapping read at line 50 of the source. -/
def policiesOf (rd : RuntimeDef) : Policies :=
  match rd with
  | some sp => sp.policies
  | none => {}

/-- The network list of line 48, and the `network or [{eth0, virtio}]`
default of lines 117-120, of the source. -/
def network_devices (rd : RuntimeDef) : List NetworkDevice :=
  let network := match rd with | some sp => sp.network | none => []
  (if network ≠ [] then network else [{ name := some "eth0", type := some "virtio" }]).map
    (fun n => { name := n.name.getD "eth0", type := n.type.getD "virtio" })

/-- Variable `vm_state` of line 49 of the source. -/
def vm_state (rd : RuntimeDef) : String :=
  match rd with
  | some sp => sp.vmState.getD "running"
  | none => "running"

/-- The function `to_application` (lines 43-134 of the source).  The `user_data` field
carries the text that `main` splices into the serialized document in place of
the placeholder (lines 83, 124, 133, 309-322 of the source). -/
def to_application (cd : ContainerDef) (rd : RuntimeDef) : Application :=
  { version := "1"
    type := "Application"
    metadata :=
      { name := cd.metadata.name
        clusterGroups := cd.metadata.clusterGroups
        labels := cd.metadata.labels }
    spec :=
      { assets :=
          [{ name := disk_name cd rd
             type := "virtual_disk"
             format := disk_format cd rd
             url := disk_image cd rd }]
        resources :=
          [{ type := "virdomain"
             name := cd.metadata.name
             spec :=
               { cpu := vcpus cd rd
                 memory := memory cd rd
                 storage_devices :=
                   [{ name := "bootdisk"
                      type := "virtio_disk"
                      source := disk_name cd rd
                      boot := 1
                      capacity := disk_capacity cd rd }]
                 network_devices := network_devices rd
                 tags := cd.metadata.labels
                 state := vm_state rd
                 cloud_init_data :=
                   { user_data :=
                       container_quadlet_user_data cd.spec.containers cd.spec.content
                         (merged_cloud_init cd rd) (policiesOf rd)
                     meta_data := meta_data cd.metadata.name } } }] } }

/-! ## The batch loop of `main` (lines 285-330 of the source) -/

/-- The outcome of one batch run: the output directory contents (an open-key
mapping from file stem to the written manifest, later writes shadowing
earlier ones), the number of files compiled, the aggregate count printed by
the final summary line (absent when the run died on an exception), and
whether an exception escaped. -/
structure BatchResult where
  outputs : List (String × Application)
  compiled : Nat
  summary : Option Nat
  aborted : Bool
  deriving DecidableEq

/-- The loop of `main` (lines 294-329 of the source): one iteration per
discovered container file, in order.  A file is modelled by its stem and the
outcome of `load_yaml` on it; the Runtime Configuration document is the one
`main` resolves for the run.  A `ParseError` raised by `load_yaml` is not
caught anywhere, so it aborts the loop: later files are not processed and
the summary line is never printed. -/
def runBatchAux (rd : RuntimeDef) :
    List (String × Except Unit ContainerDef) → List (String × Application) → Nat → BatchResult
  | [], st, n => { outputs := st, compiled := n, summary := some n, aborted := false }
  | (_, Except.error _) :: _, st, n =>
      { outputs := st, compiled := n, summary := none, aborted := true }
  | (nm, Except.ok cd) :: rest, st, n =>
      runBatchAux rd rest (st ++ [(nm, to_application cd rd)]) (n + 1)

/-- One full batch run starting from output-directory contents `st`. -/
def runBatch (st : List (String × Application))
    (files : List (String × Except Unit ContainerDef)) (rd : RuntimeDef) : BatchResult :=
  runBatchAux rd files st 0

/-- The sequence of writes a run performs: one per file up to (excluding) the
first parse failure. -/
def writesOf (rd : RuntimeDef) : List (String × Except Unit ContainerDef) → List (String × Application)
  | [] => []
  | (_, Except.error _) :: _ => []
  | (nm, Except.ok cd) :: rest => (nm, to_application cd rd) :: writesOf rd rest

/-! ## Statement-side definitions for the claims -/

/-- Modelled from the words of claim C1 / the spec's merge-order invariant:
the merged cloudInit built by applying, in order with last-write-wins per
key, the container's top-level convenience fields first, then the
container's own cloudInit mapping, then the runtime's cloudInit mapping
last.  This definition follows the claim's words; it is compared against
`merged_cloud_init`, which follows the code. -/
def merged_cloud_init_claim_order (cd : ContainerDef) (rd : RuntimeDef) : CloudInit :=
  (([] ++ convenienceEntries cd.spec) ++ cd.spec.cloudInit.getD []) ++ rc_cloud rd

/-- The same policies with the guest-agent setup and its reboot forced off:
the output for these policies is exactly the part of the generated script
that is not gated by `setupQemuGuestAgent`/`rebootAfterQga`. -/
def polOff (pol : Policies) : Policies :=
  { pol with setupQemuGuestAgent := some false, rebootAfterQga := some false }

/-- The guest-agent heredoc/install/enable tail appended by the policy gate,
as a function of the two resolved flags. -/
def qgaTail (setup reboot : Bool) : List String :=
  if setup then qgaCmds ++ (if reboot then ["  - reboot"] else []) else []

/-- Absence of an embedded newline in a string; every generated line of a
valid compile satisfies it. -/
def NoNL (s : String) : Prop := '\n' ∉ s.data

instance (s : String) : Decidable (NoNL s) :=
  inferInstanceAs (Decidable ('\n' ∉ s.data))

/-- Validity of an optional string input: its rendering (Python `str`, with
`None` for a missing value) has no embedded newline. -/
def okOpt (o : Option String) : Prop := NoNL (pyStr? o)

instance (o : Option String) : Decidable (okOpt o) :=
  inferInstanceAs (Decidable (NoNL (pyStr? o)))

/-- Validity of one user entry: every rendered field is newline-free. -/
def ValidUser (u : UserCfg) : Prop :=
  okOpt u.name ∧ (∀ g ∈ u.groups, NoNL g) ∧ okOpt u.sudo' ∧ okOpt u.shell ∧
    ∀ k ∈ u.sshAuthorizedKeys, NoNL k

instance (u : UserCfg) : Decidable (ValidUser u) := by
  unfold ValidUser; infer_instance

/-- Validity of a cloudInit value: only rendered fields are constrained (the
`chpasswd` list is split at newlines by the generator and needs no
constraint). -/
def ValidCIVal : CIVal → Prop
  | CIVal.users us => ∀ u ∈ us, ValidUser u
  | _ => True

instance (v : CIVal) : Decidable (ValidCIVal v) := by
  cases v <;> unfold ValidCIVal <;> infer_instance

/-- Validity of a cloudInit mapping. -/
def ValidCI (ci : CloudInit) : Prop := ∀ p ∈ ci, ValidCIVal p.2

instance (ci : CloudInit) : Decidable (ValidCI ci) := by
  unfold ValidCI; infer_instance

/-- Validity of one content item: path and mode are newline-free (the data
itself is split at newlines by the generator). -/
def ValidContent (it : ContentItem) : Prop :=
  okOpt it.path ∧ NoNL (it.mode.getD "0644")

instance (it : ContentItem) : Decidable (ValidContent it) := by
  unfold ValidContent; infer_instance

/-- Validity of one container entry. -/
def ValidContainer (c : ContainerCfg) : Prop :=
  NoNL (c.name.getD "app") ∧ okOpt c.image ∧ (∀ p ∈ c.ports, NoNL p) ∧
    (∀ m ∈ c.mounts, okOpt m.hostPath ∧ okOpt m.mountPath) ∧
    ∀ e ∈ c.env, okOpt e.name ∧ okOpt e.value

instance (c : ContainerCfg) : Decidable (ValidContainer c) := by
  unfold ValidContainer; infer_instance

/-- Validity of a Container Definition / Runtime Configuration pair: every
input string that the generator interpolates into a single output line is
newline-free. -/
def ValidPair (cd : ContainerDef) (rd : RuntimeDef) : Prop :=
  (∀ c ∈ cd.spec.containers, ValidContainer c) ∧
  (∀ it ∈ cd.spec.content, ValidContent it) ∧
  ValidCI (cd.spec.cloudInit.getD []) ∧
  ValidCI (rc_cloud rd) ∧
  ∀ u ∈ cd.spec.users, ValidUser u

instance (cd : ContainerDef) (rd : RuntimeDef) : Decidable (ValidPair cd rd) := by
  unfold ValidPair; infer_instance

/-! ## Concrete example documents for witnesses and counterexamples -/

/-- A user entry named alice. -/
def uAlice : UserCfg := { name := some "alice" }

/-- A user entry named bob. -/
def uBob : UserCfg := { name := some "bob" }

/-- A Container Definition whose spec has both a non-empty `cloudInit`
mapping (with its own `users` key) and the top-level `users` convenience
field. -/
def cdMut : ContainerDef :=
  { metadata := { name := some "mut" }
    spec := { cloudInit := some [("users", CIVal.users [uAlice])], users := [uBob] } }

/-- A Container Definition whose `cloudInit` has an `ssh` mapping. -/
def cdCI : ContainerDef :=
  { metadata := { name := some "ci" }
    spec := { cloudInit := some [("ssh", CIVal.ssh (some true) none)] } }

/-- A Runtime Configuration whose `cloudInit` also has an `ssh` mapping. -/
def rdCI : RuntimeDef :=
  some { cloudInit := some [("ssh", CIVal.ssh (some false) none)] }

/-- The end-to-end demo Container Definition of the spec. -/
def cdDemo : ContainerDef :=
  { metadata := { name := some "demo" }
    spec := { containers :=
        [{ name := some "web", image := some "nginx:alpine", ports := ["80"] }] } }

/-- A Container Definition with no `metadata.name`. -/
def cdNoName : ContainerDef :=
  { metadata := {}
    spec := { containers := [{ name := some "app1", image := some "img:1" }] } }

/-- A Container Definition overriding the disk capacity. -/
def cdDisk : ContainerDef :=
  { metadata := { name := some "disk" }
    spec := { runtime := { disk := [("capacity", "80Gi")] } } }

/-- A Runtime Configuration with a default disk capacity. -/
def rdDisk : RuntimeDef :=
  some { runtime := { disk := [("capacity", "40Gi")] } }

/-- A Container Definition overriding vcpus and memory. -/
def cdVcpu : ContainerDef :=
  { metadata := { name := some "vcpu" }
    spec := { runtime := { vcpus := some (some 4), memory := some (some "8Gi") } } }

/-- A Runtime Configuration with runtime defaults for vcpus and memory. -/
def rdVcpu : RuntimeDef :=
  some { runtime := { vcpus := some (some 6), memory := some (some "6Gi") } }

/-- An empty Container Definition. -/
def cdEmpty : ContainerDef := {}

/-- Policies with the guest-agent setup disabled. -/
def polNoQga : Policies := { setupQemuGuestAgent := some false }

/-- Policies with guest-agent setup enabled but the reboot disabled. -/
def polNoReboot : Policies := { rebootAfterQga := some false }

/-- A batch whose first file fails to parse. -/
def filesBadFirst : List (String × Except Unit ContainerDef) :=
  [("bad", Except.error ()), ("demo", Except.ok cdDemo)]

/-! ## Helper lemmas: dictionaries -/

theorem dget_append {α : Type} (a b : List (String × α)) (k : String) :
    dget (a ++ b) k = match dget b k with
      | some w => some w
      | none => dget a k := by
  induction a with
  | nil => cases h : dget b k <;> simp [dget, h]
  | cons p t ih =>
    obtain ⟨k', v⟩ := p
    simp only [List.cons_append, dget, List.append_eq]
    rw [ih]
    cases h : dget b k <;> cases h' : dget t k <;> simp [h, h']

/-- Lookup across an append: the right-hand (later, shadowing) dictionary
wins whenever it has the key. -/
theorem dget_append_eq {α : Type} (a b : List (String × α)) (k : String) :
    dget (a ++ b) k = if (dget b k).isSome then dget b k else dget a k := by
  rw [dget_append]
  cases dget b k <;> simp

/-- A successful lookup comes from an entry of the list. -/
theorem dget_mem {α : Type} (d : List (String × α)) (k : String) (v : α)
    (h : dget d k = some v) : (k, v) ∈ d := by
  induction d with
  | nil => simp [dget] at h
  | cons p t ih =>
    obtain ⟨k', v'⟩ := p
    simp only [dget] at h
    cases h' : dget t k with
    | some w =>
      rw [h'] at h
      obtain rfl := Option.some.inj h
      exact List.mem_cons_of_mem _ (ih h')
    | none =>
      rw [h'] at h
      by_cases hk : k' = k
      · rw [if_pos hk] at h
        obtain rfl := Option.some.inj h
        exact hk ▸ List.mem_cons_self _ _
      · rw [if_neg hk] at h
        exact absurd h (by simp)

/-! ## Helper lemmas: line splitting and joining -/

theorem splitNl_ne_nil (l : List Char) : splitNl l ≠ [] := by
  induction l with
  | nil => simp [splitNl]
  | cons c t ih =>
    simp only [splitNl]
    split
    · simp
    · cases h : splitNl t <;> simp

theorem mem_splitNl_no_newline (l : List Char) : ∀ p ∈ splitNl l, '\n' ∉ p := by
  induction l with
  | nil => intro p hp; simp [splitNl] at hp; simp [hp]
  | cons c t ih =>
    intro p hp
    simp only [splitNl] at hp
    by_cases hc : c = '\n'
    · rw [if_pos hc] at hp
      rcases List.mem_cons.mp hp with h | h
      · simp [h]
      · exact ih p h
    · rw [if_neg hc] at hp
      cases hs : splitNl t with
      | nil => exact absurd hs (splitNl_ne_nil t)
      | cons hd r =>
        rw [hs] at hp
        rcases List.mem_cons.mp hp with h | h
        · subst h
          intro hm
          rcases List.mem_cons.mp hm with h' | h'
          · exact hc h'.symm
          · exact ih hd (hs ▸ List.mem_cons_self hd r) h'
        · exact ih p (hs ▸ List.mem_cons_of_mem hd h)

/-- Every piece produced by `pySplitlines` is newline-free. -/
theorem mem_pySplitlines_noNL (s : String) : ∀ l ∈ pySplitlines s, NoNL l := by
  intro l hl
  unfold pySplitlines at hl
  split at hl
  · simp at hl
  · have key : ∀ p ∈ splitNl s.data, '\n' ∉ p := mem_splitNl_no_newline s.data
    split at hl
    · rcases List.mem_map.mp hl with ⟨p, hp, rfl⟩
      exact key p (List.dropLast_subset _ hp)
    · rcases List.mem_map.mp hl with ⟨p, hp, rfl⟩
      exact key p hp

/-- Concatenation preserves newline-freeness. -/
theorem NoNL.append {a b : String} (ha : NoNL a) (hb : NoNL b) : NoNL (a ++ b) := by
  unfold NoNL at *
  rw [String.data_append]
  intro h
  rcases List.mem_append.mp h with h' | h'
  · exact ha h'
  · exact hb h'

/-- A comma-join of newline-free strings is newline-free. -/
theorem joinComma_noNL (xs : List String) (h : ∀ x ∈ xs, NoNL x) :
    NoNL (joinComma xs) := by
  induction xs with
  | nil => intro hc; simp [joinComma, NoNL] at hc
  | cons x t ih =>
    cases t with
    | nil => simpa [joinComma] using h x (List.mem_cons_self x [])
    | cons y r =>
      have hx : NoNL x := h x (List.mem_cons_self _ _)
      have ht : NoNL (joinComma (y :: r)) :=
        ih (fun z hz => h z (List.mem_cons_of_mem _ hz))
      exact (hx.append (by decide)).append ht

/-- The last character of a newline-join is the last character of the last
line, provided that line is nonempty. -/
theorem joinNl_getLast (lines : List String) (last : String)
    (h : lines.getLast? = some last) (hne : last.data ≠ []) :
    (joinNl lines).data.getLast? = last.data.getLast? := by
  induction lines with
  | nil => simp at h
  | cons x t ih =>
    cases t with
    | nil =>
      simp only [List.getLast?_singleton] at h
      obtain rfl := Option.some.inj h
      rfl
    | cons y r =>
      have h' : (y :: r).getLast? = some last := by
        rw [List.getLast?_cons_cons] at h
        exact h
      have := ih h'
      simp only [joinNl]
      rw [String.data_append, String.data_append]
      rw [List.append_assoc]
      rw [List.getLast?_append, List.getLast?_append]
      rw [this]
      have : last.data.getLast?.isSome := by
        cases hl : last.data.getLast? with
        | none => exact absurd (List.getLast?_eq_none_iff.mp hl) hne
        | some c => simp
      cases hl : last.data.getLast? with
      | none => rw [hl] at this; simp at this
      | some c => simp

/-! ## Helper lemmas: distinguishing generated lines by a character -/

/-- A string with a literal front differs from a target whenever they
disagree at a character position inside the front. -/
theorem append_ne_of_getElem? (p s t : String) (i : Nat) (hi : i < p.data.length)
    (h : p.data[i]? ≠ t.data[i]?) : p ++ s ≠ t := by
  intro he
  apply h
  have hd : (p ++ s).data = t.data := congrArg String.data he
  rw [String.data_append] at hd
  rw [← hd, List.getElem?_append_left hi]

/-- A line is guest-agent marker free when it is none of the three
distinctive guest-agent `runcmd` entries (package install, enable command,
reboot). -/
def qgaMarkerFree (l : String) : Prop :=
  l ≠ "  - transactional-update --non-interactive pkg install qemu-guest-agent || true" ∧
  l ≠ "  - systemctl enable enable-qemu-guest-agent.service || true" ∧
  l ≠ "  - reboot"

/-- All three markers carry a dash as their third character. -/
theorem markerFree_of_char2 (l : String) (h : l.data[2]? ≠ some '-') :
    qgaMarkerFree l := by
  refine ⟨?_, ?_, ?_⟩ <;> intro he <;> subst he <;> exact h (by decide)

/-- Any line whose literal front is at least three characters long and does
not carry a dash there is marker free. -/
theorem markerFree_of_front (p s : String) (h2 : 2 < p.data.length)
    (h : p.data[2]? ≠ some '-') : qgaMarkerFree (p ++ s) := by
  apply markerFree_of_char2
  rw [String.data_append, List.getElem?_append_left h2]
  exact h

theorem markerFree_name_line (s : String) : qgaMarkerFree ("  - name: " ++ s) := by
  refine ⟨?_, ?_, ?_⟩ <;> exact append_ne_of_getElem? _ _ _ 4 (by decide) (by decide)

theorem markerFree_restart_front (s : String) :
    qgaMarkerFree ("  - systemctl restart " ++ s) := by
  refine ⟨?_, ?_, ?_⟩
  · exact append_ne_of_getElem? _ _ _ 4 (by decide) (by decide)
  · exact append_ne_of_getElem? _ _ _ 14 (by decide) (by decide)
  · exact append_ne_of_getElem? _ _ _ 4 (by decide) (by decide)

/-! ## Helper lemmas: per-segment marker freeness of the non-gated lines -/

theorem sshLines_markerFree (ci : CloudInit) : ∀ l ∈ sshLines ci, qgaMarkerFree l := by
  intro l hl
  unfold sshLines at hl
  split at hl
  case h_1 pa dr heq =>
    rcases List.mem_append.mp hl with h | h
    · cases pa with
      | none => simp [boolLine] at h
      | some b =>
        simp only [boolLine, List.mem_singleton] at h
        subst h
        exact markerFree_of_front _ _ (by decide) (by decide)
    · cases dr with
      | none => simp [boolLine] at h
      | some b =>
        simp only [boolLine, List.mem_singleton] at h
        subst h
        exact markerFree_of_front _ _ (by decide) (by decide)
  case h_2 => simp at hl

/-- Membership in a conditional segment that is empty in the other branch. -/
theorem mem_of_mem_ite_nil {α : Type} {c : Prop} [Decidable c] {xs : List α} {x : α}
    (h : x ∈ if c then xs else []) : x ∈ xs := by
  split at h
  · exact h
  · exact absurd h (List.not_mem_nil x)

instance (l : String) : Decidable (qgaMarkerFree l) := by
  unfold qgaMarkerFree; infer_instance

theorem userBlock_markerFree (u : UserCfg) : ∀ l ∈ userBlock u, qgaMarkerFree l := by
  intro l hl
  unfold userBlock at hl
  simp only [List.mem_append] at hl
  rcases hl with ((((h | h) | h) | h) | h)
  · simp only [List.mem_singleton] at h
    subst h
    exact markerFree_name_line _
  · have h := mem_of_mem_ite_nil h
    simp only [List.mem_singleton] at h
    subst h
    rw [String.append_assoc]
    exact markerFree_of_front _ _ (by decide) (by decide)
  · have h := mem_of_mem_ite_nil h
    simp only [List.mem_singleton] at h
    subst h
    exact markerFree_of_front _ _ (by decide) (by decide)
  · have h := mem_of_mem_ite_nil h
    simp only [List.mem_singleton] at h
    subst h
    exact markerFree_of_front _ _ (by decide) (by decide)
  · have h := mem_of_mem_ite_nil h
    rcases List.mem_append.mp h with h | h
    · simp only [List.mem_singleton] at h
      subst h
      decide
    · rcases List.mem_map.mp h with ⟨k, _, rfl⟩
      exact markerFree_of_front _ _ (by decide) (by decide)

theorem usersLines_markerFree (ci : CloudInit) : ∀ l ∈ usersLines ci, qgaMarkerFree l := by
  intro l hl
  unfold usersLines at hl
  have hl := mem_of_mem_ite_nil hl
  rcases List.mem_cons.mp hl with h | h
  · subst h; decide
  · rcases List.mem_flatMap.mp h with ⟨u, _, hu⟩
    exact userBlock_markerFree u l hu

theorem chpasswdLines_markerFree (ci : CloudInit) :
    ∀ l ∈ chpasswdLines ci, qgaMarkerFree l := by
  intro l hl
  unfold chpasswdLines at hl
  split at hl
  case h_1 c heq =>
    rcases List.mem_append.mp hl with h | h
    · rcases List.mem_append.mp h with h | h
      · simp only [List.mem_singleton] at h
        subst h; decide
      · cases hc : c.list with
        | none => rw [hc] at h; simp [chpasswdListBlock] at h
        | some s =>
          rw [hc] at h
          simp only [chpasswdListBlock, List.cons_append, List.nil_append] at h
          rcases List.mem_cons.mp h with h | h
          · subst h; decide
          · rcases List.mem_map.mp h with ⟨ln, _, rfl⟩
            exact markerFree_of_front _ _ (by decide) (by decide)
    · cases he : c.expire with
      | none => rw [he] at h; simp [boolLine] at h
      | some b =>
        rw [he] at h
        simp only [boolLine, List.mem_singleton] at h
        subst h
        exact markerFree_of_front _ _ (by decide) (by decide)
  case h_2 => simp at hl

theorem contentBlock_markerFree (it : ContentItem) :
    ∀ l ∈ contentBlock it, qgaMarkerFree l := by
  intro l hl
  unfold contentBlock at hl
  simp only [List.mem_append] at hl
  rcases hl with (h | h) | h
  · rcases List.mem_cons.mp h with h | h
    · subst h; decide
    · simp only [List.mem_singleton] at h
      subst h
      exact markerFree_of_front _ _ (by decide) (by decide)
  · rcases List.mem_map.mp h with ⟨ln, _, rfl⟩
    exact markerFree_of_front _ _ (by decide) (by decide)
  · rcases List.mem_cons.mp h with h | h
    · subst h; decide
    · simp only [List.mem_singleton] at h
      subst h
      rw [String.append_assoc, String.append_assoc]
      exact markerFree_of_front _ _ (by decide) (by decide)

theorem containerBlock_markerFree (b : Bool) (c : ContainerCfg) :
    ∀ l ∈ containerBlock b c, qgaMarkerFree l := by
  intro l hl
  unfold containerBlock at hl
  simp only [List.mem_append] at hl
  rcases hl with (((((h | h) | h) | h) | h) | h)
  · rcases List.mem_cons.mp h with h | h
    · subst h; decide
    · rcases List.mem_cons.mp h with h | h
      · subst h
        rw [String.append_assoc]
        exact markerFree_of_front _ _ (by decide) (by decide)
      · rcases List.mem_cons.mp h with h | h
        · subst h; decide
        · simp only [List.mem_singleton] at h
          subst h
          exact markerFree_of_front _ _ (by decide) (by decide)
  · rcases List.mem_map.mp h with ⟨p, _, rfl⟩
    exact markerFree_of_front _ _ (by decide) (by decide)
  · rcases List.mem_map.mp h with ⟨m, _, rfl⟩
    rw [String.append_assoc, String.append_assoc, String.append_assoc]
    exact markerFree_of_front _ _ (by decide) (by decide)
  · rcases List.mem_map.mp h with ⟨e, _, rfl⟩
    rw [String.append_assoc, String.append_assoc]
    exact markerFree_of_front _ _ (by decide) (by decide)
  · have h := mem_of_mem_ite_nil h
    simp only [List.mem_singleton] at h
    subst h; decide
  · rcases List.mem_cons.mp h with h | h
    · subst h
      apply markerFree_of_char2
      decide
    · rcases List.mem_cons.mp h with h | h
      · subst h; decide
      · rcases List.mem_cons.mp h with h | h
        · subst h; decide
        · simp only [List.mem_singleton] at h
          subst h; decide

theorem restartLine_markerFree (c : ContainerCfg) : qgaMarkerFree (restartLine c) := by
  unfold restartLine
  rw [String.append_assoc]
  exact markerFree_restart_front _

theorem fixed_lines_markerFree :
    ∀ l ∈ (["#cloud-config", "write_files: []", "runcmd:",
            "  - systemctl enable podman.socket",
            "  - systemctl enable --now podman-auto-update.timer",
            "  - mkdir -p /etc/containers/systemd",
            "  - mkdir -p /var/edge/www",
            "  - systemctl daemon-reload"] : List String), qgaMarkerFree l := by
  decide

/-- With the guest-agent policy off, every generated line avoids all three
distinctive guest-agent commands. -/
theorem userDataLines_markerFree (cs : List ContainerCfg) (ct : List ContentItem)
    (ci : CloudInit) (pol : Policies)
    (hq : resolvedFlag pol.setupQemuGuestAgent = false) :
    ∀ l ∈ userDataLines cs ct ci pol, qgaMarkerFree l := by
  intro l hl
  unfold userDataLines at hl
  rw [hq] at hl
  simp only [Bool.false_eq_true, if_false, List.append_nil, List.mem_append] at hl
  rcases hl with ((((((((((hA | hB) | hC) | hD) | hE) | hF) | hG) | hH) | hI) | hJ) | hK) | hL
  · simp only [List.mem_singleton] at hA
    subst hA; exact fixed_lines_markerFree _ (by decide)
  · exact sshLines_markerFree ci l hB
  · exact usersLines_markerFree ci l hC
  · exact chpasswdLines_markerFree ci l hD
  · rcases List.mem_cons.mp hE with h | h
    · subst h; exact fixed_lines_markerFree _ (by decide)
    · simp only [List.mem_singleton] at h
      subst h; exact fixed_lines_markerFree _ (by decide)
  · have h := mem_of_mem_ite_nil hF
    simp only [List.mem_singleton] at h
    subst h; exact fixed_lines_markerFree _ (by decide)
  · have h := mem_of_mem_ite_nil hG
    simp only [List.mem_singleton] at h
    subst h; exact fixed_lines_markerFree _ (by decide)
  · rcases List.mem_cons.mp hH with h | h
    · subst h; exact fixed_lines_markerFree _ (by decide)
    · simp only [List.mem_singleton] at h
      subst h; exact fixed_lines_markerFree _ (by decide)
  · rcases List.mem_flatMap.mp hI with ⟨it, _, h⟩
    exact contentBlock_markerFree it l h
  · rcases List.mem_flatMap.mp hJ with ⟨c, _, h⟩
    exact containerBlock_markerFree _ c l h
  · simp only [List.mem_singleton] at hK
    subst hK; exact fixed_lines_markerFree _ (by decide)
  · rcases List.mem_map.mp hL with ⟨c, _, rfl⟩
    exact restartLine_markerFree c

/-! ## Helper lemmas: generated lines contain no embedded newline -/

theorem pyBool_noNL (b : Bool) : NoNL (pyBool b) := by cases b <;> decide

theorem boolLine_noNL (front : String) (o : Option Bool) (hf : NoNL front) :
    ∀ l ∈ boolLine front o, NoNL l := by
  intro l hl
  cases o with
  | none => simp [boolLine] at hl
  | some b =>
    simp only [boolLine, List.mem_singleton] at hl
    subst hl
    exact hf.append (pyBool_noNL b)

theorem sshLines_noNL (ci : CloudInit) : ∀ l ∈ sshLines ci, NoNL l := by
  intro l hl
  unfold sshLines at hl
  split at hl
  case h_1 pa dr heq =>
    rcases List.mem_append.mp hl with h | h
    · exact boolLine_noNL _ pa (by decide) l h
    · exact boolLine_noNL _ dr (by decide) l h
  case h_2 => simp at hl

theorem userBlock_noNL (u : UserCfg) (hu : ValidUser u) : ∀ l ∈ userBlock u, NoNL l := by
  obtain ⟨h1, h2, h3, h4, h5⟩ := hu
  intro l hl
  unfold userBlock at hl
  simp only [List.mem_append] at hl
  rcases hl with ((((h | h) | h) | h) | h)
  · simp only [List.mem_singleton] at h
    subst h
    exact NoNL.append (by decide) h1
  · have h := mem_of_mem_ite_nil h
    simp only [List.mem_singleton] at h
    subst h
    exact (NoNL.append (by decide) (joinComma_noNL _ h2)).append (by decide)
  · have h := mem_of_mem_ite_nil h
    simp only [List.mem_singleton] at h
    subst h
    exact NoNL.append (by decide) h3
  · have h := mem_of_mem_ite_nil h
    simp only [List.mem_singleton] at h
    subst h
    exact NoNL.append (by decide) h4
  · have h := mem_of_mem_ite_nil h
    rcases List.mem_append.mp h with h | h
    · simp only [List.mem_singleton] at h
      subst h; decide
    · rcases List.mem_map.mp h with ⟨k, hk, rfl⟩
      exact NoNL.append (by decide) (h5 k hk)

/-- The users rendered by the generator are entries of the cloudInit
mapping, so a valid mapping renders valid users. -/
theorem usersOf_valid (ci : CloudInit) (h : ValidCI ci) :
    ∀ u ∈ usersOf ci, ValidUser u := by
  intro u hu
  unfold usersOf at hu
  split at hu
  case h_1 us heq =>
    have hv := h _ (dget_mem _ _ _ heq)
    exact hv u hu
  case h_2 => simp at hu

theorem usersLines_noNL (ci : CloudInit) (h : ValidCI ci) :
    ∀ l ∈ usersLines ci, NoNL l := by
  intro l hl
  unfold usersLines at hl
  have hl := mem_of_mem_ite_nil hl
  rcases List.mem_cons.mp hl with h' | h'
  · subst h'; decide
  · rcases List.mem_flatMap.mp h' with ⟨u, hu, hm⟩
    exact userBlock_noNL u (usersOf_valid ci h u hu) l hm

theorem chpasswdLines_noNL (ci : CloudInit) : ∀ l ∈ chpasswdLines ci, NoNL l := by
  intro l hl
  unfold chpasswdLines at hl
  split at hl
  case h_1 c heq =>
    rcases List.mem_append.mp hl with h | h
    · rcases List.mem_append.mp h with h | h
      · simp only [List.mem_singleton] at h
        subst h; decide
      · cases hc : c.list with
        | none => rw [hc] at h; simp [chpasswdListBlock] at h
        | some s =>
          rw [hc] at h
          simp only [chpasswdListBlock, List.cons_append, List.nil_append] at h
          rcases List.mem_cons.mp h with h | h
          · subst h; decide
          · rcases List.mem_map.mp h with ⟨ln, hln, rfl⟩
            exact NoNL.append (by decide) (mem_pySplitlines_noNL s ln hln)
    · exact boolLine_noNL _ c.expire (by decide) l h
  case h_2 => simp at hl

theorem contentBlock_noNL (it : ContentItem) (h : ValidContent it) :
    ∀ l ∈ contentBlock it, NoNL l := by
  obtain ⟨h1, h2⟩ := h
  intro l hl
  unfold contentBlock at hl
  simp only [List.mem_append] at hl
  rcases hl with (h | h) | h
  · rcases List.mem_cons.mp h with h | h
    · subst h; decide
    · simp only [List.mem_singleton] at h
      subst h
      exact NoNL.append (by decide) h1
  · rcases List.mem_map.mp h with ⟨ln, hln, rfl⟩
    exact NoNL.append (by decide) (mem_pySplitlines_noNL _ ln hln)
  · rcases List.mem_cons.mp h with h | h
    · subst h; decide
    · simp only [List.mem_singleton] at h
      subst h
      exact ((NoNL.append (by decide) h2).append (by decide)).append h1

theorem containerBlock_noNL (b : Bool) (c : ContainerCfg) (h : ValidContainer c) :
    ∀ l ∈ containerBlock b c, NoNL l := by
  obtain ⟨h1, h2, h3, h4, h5⟩ := h
  intro l hl
  unfold containerBlock at hl
  simp only [List.mem_append] at hl
  rcases hl with (((((h | h) | h) | h) | h) | h)
  · rcases List.mem_cons.mp h with h | h
    · subst h; decide
    · rcases List.mem_cons.mp h with h | h
      · subst h
        exact (NoNL.append (by decide) h1).append (by decide)
      · rcases List.mem_cons.mp h with h | h
        · subst h; decide
        · simp only [List.mem_singleton] at h
          subst h
          exact NoNL.append (by decide) h2
  · rcases List.mem_map.mp h with ⟨p, hp, rfl⟩
    exact NoNL.append (by decide) (h3 p hp)
  · rcases List.mem_map.mp h with ⟨m, hm, rfl⟩
    refine NoNL.append (((NoNL.append (by decide) (h4 m hm).1).append (by decide)).append (h4 m hm).2) ?_
    split
    · decide
    · decide
  · rcases List.mem_map.mp h with ⟨e, he, rfl⟩
    exact ((NoNL.append (by decide) (h5 e he).1).append (by decide)).append (h5 e he).2
  · have h := mem_of_mem_ite_nil h
    simp only [List.mem_singleton] at h
    subst h; decide
  · rcases List.mem_cons.mp h with h | h
    · subst h; decide
    · rcases List.mem_cons.mp h with h | h
      · subst h; decide
      · rcases List.mem_cons.mp h with h | h
        · subst h; decide
        · simp only [List.mem_singleton] at h
          subst h; decide

theorem restartLine_noNL (c : ContainerCfg) (h : NoNL (c.name.getD "app")) :
    NoNL (restartLine c) := by
  unfold restartLine
  exact (NoNL.append (by decide) h).append (by decide)

theorem qgaCmds_noNL : ∀ l ∈ qgaCmds, NoNL l := by decide

/-- Every line generated for valid inputs is newline-free. -/
theorem userDataLines_noNL (cs : List ContainerCfg) (ct : List ContentItem)
    (ci : CloudInit) (pol : Policies)
    (hc : ∀ c ∈ cs, ValidContainer c) (hct : ∀ it ∈ ct, ValidContent it)
    (hci : ValidCI ci) :
    ∀ l ∈ userDataLines cs ct ci pol, NoNL l := by
  intro l hl
  unfold userDataLines at hl
  simp only [List.mem_append] at hl
  rcases hl with (((((((((((hA | hB) | hC) | hD) | hE) | hF) | hG) | hH) | hI) | hJ) | hK) | hL) | hM
  · simp only [List.mem_singleton] at hA
    subst hA; decide
  · exact sshLines_noNL ci l hB
  · exact usersLines_noNL ci hci l hC
  · exact chpasswdLines_noNL ci l hD
  · rcases List.mem_cons.mp hE with h | h
    · subst h; decide
    · simp only [List.mem_singleton] at h
      subst h; decide
  · have h := mem_of_mem_ite_nil hF
    simp only [List.mem_singleton] at h
    subst h; decide
  · have h := mem_of_mem_ite_nil hG
    simp only [List.mem_singleton] at h
    subst h; decide
  · rcases List.mem_cons.mp hH with h | h
    · subst h; decide
    · simp only [List.mem_singleton] at h
      subst h; decide
  · rcases List.mem_flatMap.mp hI with ⟨it, hit, h⟩
    exact contentBlock_noNL it (hct it hit) l h
  · rcases List.mem_flatMap.mp hJ with ⟨c, hcc, h⟩
    exact containerBlock_noNL _ c (hc c hcc) l h
  · simp only [List.mem_singleton] at hK
    subst hK; decide
  · rcases List.mem_map.mp hL with ⟨c, hcc, rfl⟩
    exact restartLine_noNL c (hc c hcc).1
  · have h := mem_of_mem_ite_nil hM
    rcases List.mem_append.mp h with h | h
    · exact qgaCmds_noNL l h
    · have h := mem_of_mem_ite_nil h
      simp only [List.mem_singleton] at h
      subst h; decide

theorem ValidCI_append (a b : CloudInit) (ha : ValidCI a) (hb : ValidCI b) :
    ValidCI (a ++ b) := by
  intro p hp
  rcases List.mem_append.mp hp with h | h
  · exact ha p h
  · exact hb p h

theorem convenienceEntries_valid (spec : ContainerSpec)
    (h : ∀ u ∈ spec.users, ValidUser u) : ValidCI (convenienceEntries spec) := by
  intro p hp
  unfold convenienceEntries at hp
  rcases List.mem_append.mp hp with h' | h'
  · have h' := mem_of_mem_ite_nil h'
    simp only [List.mem_singleton] at h'
    subst h'
    exact h
  · split at h'
    case h_1 c =>
      have h' := mem_of_mem_ite_nil h'
      simp only [List.mem_singleton] at h'
      subst h'
      trivial
    case h_2 => simp at h'

/-- A valid input pair yields a valid merged cloudInit mapping. -/
theorem merged_cloud_init_valid (cd : ContainerDef) (rd : RuntimeDef)
    (h : ValidPair cd rd) : ValidCI (merged_cloud_init cd rd) := by
  obtain ⟨h1, h2, h3, h4, h5⟩ := h
  unfold merged_cloud_init ct_cloud
  rw [List.nil_append]
  exact ValidCI_append _ _ (ValidCI_append _ _ h3 (convenienceEntries_valid _ h5)) h4

/-! ## Helper lemmas: head and last line of the generated script -/

/-- The generated line list starts with the header and has at least one more
line. -/
theorem userDataLines_head (cs : List ContainerCfg) (ct : List ContentItem)
    (ci : CloudInit) (pol : Policies) :
    ∃ t, userDataLines cs ct ci pol = "#cloud-config" :: t ∧ t ≠ [] := by
  refine ⟨_, rfl, ?_⟩
  intro h
  have hlen := congrArg List.length h
  simp only [List.append_eq, List.length_append, List.length_nil,
    List.length_cons] at hlen
  omega

/-- The first characters of the joined script are the first line and a
newline. -/
theorem joinNl_head_take (x : String) (t : List String) (ht : t ≠ []) :
    ((joinNl (x :: t)) ++ "\n").data.take (x.data.length + 1) = x.data ++ ['\n'] := by
  cases t with
  | nil => exact absurd rfl ht
  | cons y r =>
    show ((x ++ "\n" ++ joinNl (y :: r)) ++ "\n").data.take (x.data.length + 1) = _
    rw [String.data_append, String.data_append, String.data_append]
    rw [List.append_assoc, List.append_assoc]
    rw [List.take_append 1]
    simp

/-- Getting the last element across an append when the right part has one. -/
theorem getLast?_append_some {α : Type} (a b : List α) (x : α)
    (h : b.getLast? = some x) : (a ++ b).getLast? = some x := by
  rw [List.getLast?_append, h]
  rfl

/-- Getting the last element across an append when the right part is empty. -/
theorem getLast?_append_none {α : Type} (a b : List α)
    (h : b.getLast? = none) : (a ++ b).getLast? = a.getLast? := by
  rw [List.getLast?_append, h]
  rfl

/-- The last character of a restart line is the final letter of `.service`. -/
theorem restartLine_last (c : ContainerCfg) :
    (restartLine c).data ≠ [] ∧ (restartLine c).data.getLast? = some 'e' := by
  unfold restartLine
  rw [String.data_append]
  constructor
  · exact List.append_ne_nil_of_right_ne_nil _ (by decide)
  · exact getLast?_append_some _ _ _ (by decide)

/-- The generated line list always ends in a nonempty line whose last
character is not a newline. -/
theorem userDataLines_last (cs : List ContainerCfg) (ct : List ContentItem)
    (ci : CloudInit) (pol : Policies) :
    ∃ s, (userDataLines cs ct ci pol).getLast? = some s ∧
      s.data ≠ [] ∧ s.data.getLast? ≠ some '\n' := by
  unfold userDataLines
  cases hsetup : resolvedFlag pol.setupQemuGuestAgent with
  | true =>
    cases hreboot : resolvedFlag pol.rebootAfterQga with
    | true =>
      exact ⟨"  - reboot", getLast?_append_some _ _ _ (by decide), by decide, by decide⟩
    | false =>
      exact ⟨"    EOF", getLast?_append_some _ _ _ (by decide), by decide, by decide⟩
  | false =>
    rw [getLast?_append_none _ _ (by rfl)]
    cases hcs : cs.getLast? with
    | some c =>
      refine ⟨restartLine c, ?_, (restartLine_last c).1, by
        rw [(restartLine_last c).2]; decide⟩
      exact getLast?_append_some _ _ _ (by rw [List.getLast?_map, hcs]; rfl)
    | none =>
      refine ⟨"  - systemctl daemon-reload", ?_, by decide, by decide⟩
      rw [getLast?_append_none _ _ (by rw [List.getLast?_map, hcs]; rfl)]
      exact getLast?_append_some _ _ _ (by decide)

/-! ## Helper lemmas: the batch loop -/

theorem runBatchAux_outputs (rd : RuntimeDef) :
    ∀ (files : List (String × Except Unit ContainerDef))
      (st : List (String × Application)) (n : Nat),
      (runBatchAux rd files st n).outputs = st ++ writesOf rd files := by
  intro files
  induction files with
  | nil => intro st n; simp [runBatchAux, writesOf]
  | cons f rest ih =>
    intro st n
    obtain ⟨nm, e⟩ := f
    cases e with
    | error u => simp [runBatchAux, writesOf]
    | ok cd =>
      show (runBatchAux rd rest (st ++ [(nm, to_application cd rd)]) (n + 1)).outputs = _
      rw [ih]
      simp [writesOf]

theorem runBatchAux_summary_st (rd : RuntimeDef) :
    ∀ (files : List (String × Except Unit ContainerDef))
      (st st' : List (String × Application)) (n : Nat),
      (runBatchAux rd files st n).summary = (runBatchAux rd files st' n).summary ∧
      (runBatchAux rd files st n).compiled = (runBatchAux rd files st' n).compiled ∧
      (runBatchAux rd files st n).aborted = (runBatchAux rd files st' n).aborted := by
  intro files
  induction files with
  | nil => intro st st' n; exact ⟨rfl, rfl, rfl⟩
  | cons f rest ih =>
    intro st st' n
    obtain ⟨nm, e⟩ := f
    cases e with
    | error u => exact ⟨rfl, rfl, rfl⟩
    | ok cd => exact ih _ _ (n + 1)

/-- A run over files that all parse compiles every one of them, writes one
output per file, and prints the aggregate count. -/
theorem runBatchAux_ok (rd : RuntimeDef) :
    ∀ (files : List (String × Except Unit ContainerDef))
      (st : List (String × Application)) (n : Nat),
      (∀ f ∈ files, (f.2).toOption.isSome = true) →
      runBatchAux rd files st n =
        { outputs := st ++ writesOf rd files, compiled := n + files.length,
          summary := some (n + files.length), aborted := false } := by
  intro files
  induction files with
  | nil => intro st n _; simp [runBatchAux, writesOf]
  | cons f rest ih =>
    intro st n hok
    obtain ⟨nm, e⟩ := f
    cases e with
    | error u =>
      have := hok (nm, Except.error u) (List.mem_cons_self _ _)
      simp [Except.toOption] at this
    | ok cd =>
      show runBatchAux rd rest (st ++ [(nm, to_application cd rd)]) (n + 1) = _
      rw [ih _ (n + 1) (fun f hf => hok f (List.mem_cons_of_mem _ hf))]
      simp only [writesOf, List.length_cons, List.append_assoc, List.singleton_append]
      have harith : n + 1 + rest.length = n + (rest.length + 1) := by omega
      rw [harith]

/-- A run that hits a parse failure stops there: only the files before the
failure are written and counted, and no aggregate summary is produced. -/
theorem runBatchAux_error (rd : RuntimeDef) :
    ∀ (pre : List (String × Except Unit ContainerDef)) (nm : String)
      (rest : List (String × Except Unit ContainerDef))
      (st : List (String × Application)) (n : Nat),
      (∀ f ∈ pre, (f.2).toOption.isSome = true) →
      runBatchAux rd (pre ++ (nm, Except.error ()) :: rest) st n =
        { outputs := st ++ writesOf rd pre, compiled := n + pre.length,
          summary := none, aborted := true } := by
  intro pre
  induction pre with
  | nil => intro nm rest st n _; simp [runBatchAux, writesOf]
  | cons f p ih =>
    intro nm rest st n hok
    obtain ⟨nm', e⟩ := f
    cases e with
    | error u =>
      have := hok (nm', Except.error u) (List.mem_cons_self _ _)
      simp [Except.toOption] at this
    | ok cd =>
      show runBatchAux rd (p ++ (nm, Except.error ()) :: rest)
        (st ++ [(nm', to_application cd rd)]) (n + 1) = _
      rw [ih nm rest _ (n + 1) (fun f hf => hok f (List.mem_cons_of_mem _ hf))]
      simp [writesOf, List.append_assoc]
      omega

/-! ## The claims -/

/-- C1 counterexample: the claim's merge order (convenience fields first,
then the container's own cloudInit) disagrees with the code on a container
whose cloudInit mapping and top-level `users` field both define users.  The
code gives the convenience field the last word on the container side; the
claimed order would give it to the cloudInit mapping. -/
theorem c1_merge_order_counterexample :
    dget (merged_cloud_init cdMut none) "users" = some (CIVal.users [uBob]) ∧
    dget (merged_cloud_init_claim_order cdMut none) "users" = some (CIVal.users [uAlice]) ∧
    merged_cloud_init cdMut none ≠ merged_cloud_init_claim_order cdMut none := by
  refine ⟨by decide, by decide, by decide⟩

/-- C1 (amended): the merged cloudInit record is built by applying, in order
with last-write-wins per key, the container's own cloudInit mapping first,
then the container's top-level convenience fields (users, chpasswd), then the
runtime's cloudInit mapping last — so for any key present in both the
container side and the runtime mapping, the runtime value is the one in the
merged record. -/
theorem c1_merge_order_amended (cd : ContainerDef) (rd : RuntimeDef) :
    merged_cloud_init cd rd =
      (([] ++ cd.spec.cloudInit.getD []) ++ convenienceEntries cd.spec) ++ rc_cloud rd ∧
    (∀ k, (dget (rc_cloud rd) k).isSome = true →
      dget (merged_cloud_init cd rd) k = dget (rc_cloud rd) k) := by
  constructor
  · simp [merged_cloud_init, ct_cloud]
  · intro k hk
    unfold merged_cloud_init
    rw [dget_append_eq]
    simp [hk]

/-- Witness for C1 (amended): with an `ssh` mapping on both sides, the
runtime's value is the merged one. -/
theorem c1_merge_order_witness :
    dget (merged_cloud_init cdCI rdCI) "ssh" = some (CIVal.ssh (some false) none) := by
  have h := (c1_merge_order_amended cdCI rdCI).2 "ssh" (by decide)
  rw [h]
  decide

/-- C4 counterexample: the merge is not free of side effects on its inputs.
On a container whose cloudInit mapping is non-empty and whose spec has a
truthy top-level `users`, `ct_cloud` aliases the container's own mapping and
the assignment of line 76 writes through it, so the Container Definition
document is changed by `to_application`. -/
theorem c4_purity_counterexample : containerDefAfter cdMut ≠ cdMut := by decide

/-- C4 (amended): the merge never changes the Runtime Configuration and
changes nothing of the Container Definition except its `cloudInit` mapping;
that mapping is changed only when it is truthy (present and non-empty) and a
truthy top-level `users`/`chpasswd` exists, in which case those convenience
values are written into it (the code's in-place `ct_cloud` update).  With no
truthy convenience field, or no truthy cloudInit mapping, the container
document is returned exactly as it came in. -/
theorem c4_purity_amended (cd : ContainerDef) :
    ((cd.spec.users = [] ∧ chpasswdTruthy cd.spec.chpasswd = false) →
      containerDefAfter cd = cd) ∧
    (cd.spec.cloudInit = none → containerDefAfter cd = cd) ∧
    (cd.spec.cloudInit = some [] → containerDefAfter cd = cd) ∧
    ((containerDefAfter cd).metadata = cd.metadata ∧
      (containerDefAfter cd).spec.containers = cd.spec.containers ∧
      (containerDefAfter cd).spec.content = cd.spec.content ∧
      (containerDefAfter cd).spec.users = cd.spec.users ∧
      (containerDefAfter cd).spec.chpasswd = cd.spec.chpasswd ∧
      (containerDefAfter cd).spec.runtime = cd.spec.runtime) ∧
    (∀ d, cd.spec.cloudInit = some d → d ≠ [] →
      (containerDefAfter cd).spec.cloudInit = some (d ++ convenienceEntries cd.spec)) := by
  refine ⟨?_, ?_, ?_, ?_, ?_⟩
  · rintro ⟨hu, hch⟩
    have hconv : convenienceEntries cd.spec = [] := by
      unfold convenienceEntries
      rw [if_neg (by simp [hu])]
      cases hc : cd.spec.chpasswd with
      | none => rfl
      | some c =>
        rw [hc] at hch
        simp only [chpasswdTruthy] at hch
        simp [hch]
    unfold containerDefAfter
    cases hci : cd.spec.cloudInit with
    | none => rfl
    | some d =>
      dsimp only
      by_cases hd : d = []
      · subst hd; simp
      · rw [if_pos hd, hconv, List.append_nil, ← hci]
  · intro h
    unfold containerDefAfter
    rw [h]
  · intro h
    unfold containerDefAfter
    rw [h]
    simp
  · unfold containerDefAfter
    cases hci : cd.spec.cloudInit with
    | none => exact ⟨rfl, rfl, rfl, rfl, rfl, rfl⟩
    | some d =>
      dsimp only
      by_cases hd : d = []
      · rw [if_neg (by simp [hd])]
        exact ⟨rfl, rfl, rfl, rfl, rfl, rfl⟩
      · rw [if_pos hd]
        exact ⟨rfl, rfl, rfl, rfl, rfl, rfl⟩
  · intro d hd hdne
    unfold containerDefAfter
    rw [hd]
    dsimp only
    rw [if_pos hdne]

/-- Witness for C4 (amended): the mutated case at `cdMut` and the untouched
case at the empty document. -/
theorem c4_purity_witness :
    (containerDefAfter cdMut).spec.cloudInit =
      some ([("users", CIVal.users [uAlice])] ++ convenienceEntries cdMut.spec) ∧
    containerDefAfter cdEmpty = cdEmpty := by
  constructor
  · exact (c4_purity_amended cdMut).2.2.2.2 _ rfl (by decide)
  · exact (c4_purity_amended cdEmpty).1 ⟨rfl, rfl⟩

/-- C2 counterexample: with a malformed first file, the batch run aborts:
the well-formed second file is never compiled, nothing is written, and no
aggregate count is printed — the loop of `main` has no exception handling,
so the claimed isolate-and-continue behavior does not exist. -/
theorem c2_batch_isolation_counterexample :
    (runBatch [] filesBadFirst none).outputs = [] ∧
    (runBatch [] filesBadFirst none).compiled = 0 ∧
    (runBatch [] filesBadFirst none).summary = none ∧
    (runBatch [] filesBadFirst none).aborted = true :=
  ⟨rfl, rfl, rfl, rfl⟩

/-- C2 (amended): a parse failure on one file aborts the whole batch run at
that file: the files before it are compiled and written, the failing file
and every later file are skipped, and the aggregate count is not printed.
Only a run in which every file parses compiles all files and reports the
aggregate count. -/
theorem c2_batch_isolation_amended (rd : RuntimeDef)
    (st : List (String × Application))
    (pre rest : List (String × Except Unit ContainerDef)) (nm : String)
    (hpre : ∀ f ∈ pre, (f.2).toOption.isSome = true) :
    runBatch st (pre ++ (nm, Except.error ()) :: rest) rd =
      { outputs := st ++ writesOf rd pre, compiled := pre.length,
        summary := none, aborted := true } ∧
    (∀ files, (∀ f ∈ files, (f.2).toOption.isSome = true) →
      runBatch st files rd =
        { outputs := st ++ writesOf rd files, compiled := files.length,
          summary := some files.length, aborted := false }) := by
  constructor
  · have h := runBatchAux_error rd pre nm rest st 0 hpre
    simpa [runBatch] using h
  · intro files hfk
    have h := runBatchAux_ok rd files st 0 hfk
    simpa [runBatch] using h

/-- Witness for C2 (amended): one good file, then a bad one, then another
good one — only the first is compiled, and no summary appears. -/
theorem c2_batch_isolation_witness :
    runBatch [] ([("demo", Except.ok cdDemo)] ++
        ("bad", Except.error ()) :: [("late", Except.ok cdNoName)]) none =
      { outputs := [] ++ writesOf none [("demo", Except.ok cdDemo)], compiled := 1,
        summary := none, aborted := true } :=
  (c2_batch_isolation_amended none [] [("demo", Except.ok cdDemo)]
    [("late", Except.ok cdNoName)] "bad" (by decide)).1

/-- C3 counterexample: a Container Definition without a `metadata.name` is
not rejected.  `to_application` returns a manifest whose name is null, the
batch loop writes its output file and counts it, and no error of any kind is
raised. -/
theorem c3_missing_name_counterexample :
    (to_application cdNoName none).metadata.name = none ∧
    runBatch [] [("noname", Except.ok cdNoName)] none =
      { outputs := [("noname", to_application cdNoName none)], compiled := 1,
        summary := some 1, aborted := false } :=
  ⟨rfl, rfl⟩

/-- C3 (amended): a missing or empty application name does not fail
compilation: `to_application` has no name validation, it propagates the
(possibly null) name into the manifest's metadata and resource, and the
batch loop writes and counts the output file as for any other document. -/
theorem c3_missing_name_amended (cd : ContainerDef) (rd : RuntimeDef) (nm : String) :
    (to_application cd rd).metadata.name = cd.metadata.name ∧
    (to_application cd rd).spec.resources.map Resource.name = [cd.metadata.name] ∧
    runBatch [] [(nm, Except.ok cd)] rd =
      { outputs := [(nm, to_application cd rd)], compiled := 1,
        summary := some 1, aborted := false } :=
  ⟨rfl, rfl, rfl⟩

/-- C5: the merged disk is computed key by key with the container disk
mapping overriding the runtime one (`{**defaults, **overrides}`), so a
container `capacity` wins over a runtime `capacity`; the resolved image URL
is the merged `imageUrl` when truthy and the merged `url` otherwise; and the
manifest's single asset and boot device carry exactly these resolved
values. -/
theorem c5_disk_merge (cd : ContainerDef) (rd : RuntimeDef) :
    (∀ k, dget (merged_disk cd rd) k =
      if (dget cd.spec.runtime.disk k).isSome then dget cd.spec.runtime.disk k
      else dget (runtime_defaults rd).disk k) ∧
    (∀ u, dget (merged_disk cd rd) "imageUrl" = some u → u ≠ "" →
      disk_image cd rd = some u) ∧
    (pyTruthyS (dget (merged_disk cd rd) "imageUrl") = false →
      disk_image cd rd = dget (merged_disk cd rd) "url") ∧
    (to_application cd rd).spec.assets.map Asset.url = [disk_image cd rd] ∧
    (to_application cd rd).spec.resources.map
        (fun r => r.spec.storage_devices.map (fun d => d.capacity)) =
      [[disk_capacity cd rd]] := by
  refine ⟨?_, ?_, ?_, rfl, rfl⟩
  · intro k
    unfold merged_disk
    exact dget_append_eq _ _ k
  · intro u hu hne
    unfold disk_image pyOrS
    rw [hu]
    simp [pyTruthyS, hne]
  · intro h
    unfold disk_image pyOrS
    rw [h]
    simp

/-- Witness for C5: runtime `capacity: 40Gi` and container `capacity: 80Gi`
merge to `80Gi`; with no image fields, the url falls through to `none`. -/
theorem c5_disk_merge_witness :
    dget (merged_disk cdDisk rdDisk) "capacity" = some "80Gi" ∧
    disk_image cdDisk rdDisk = none := by
  constructor
  · have h := (c5_disk_merge cdDisk rdDisk).1 "capacity"
    rw [h]
    decide
  · have h := (c5_disk_merge cdDisk rdDisk).2.2.1 (by decide)
    rw [h]
    decide

/-- C6: the resolved vcpus/memory take the container value when truthy,
else the runtime mapping's value when the key is present, else the hard
defaults 2 and 2Gi; the manifest's resource carries exactly those resolved
values. -/
theorem c6_vcpu_memory_defaults (cd : ContainerDef) (rd : RuntimeDef) :
    (∀ n : Int, cd.spec.runtime.vcpus.join = some n → n ≠ 0 → vcpus cd rd = some n) ∧
    (∀ v, (runtime_defaults rd).vcpus = some v →
      pyTruthyI cd.spec.runtime.vcpus.join = false → vcpus cd rd = v) ∧
    ((runtime_defaults rd).vcpus = none →
      pyTruthyI cd.spec.runtime.vcpus.join = false → vcpus cd rd = some 2) ∧
    (∀ s : String, cd.spec.runtime.memory.join = some s → s ≠ "" →
      memory cd rd = some s) ∧
    (∀ v, (runtime_defaults rd).memory = some v →
      pyTruthyS cd.spec.runtime.memory.join = false → memory cd rd = v) ∧
    ((runtime_defaults rd).memory = none →
      pyTruthyS cd.spec.runtime.memory.join = false → memory cd rd = some "2Gi") ∧
    (to_application cd rd).spec.resources.map (fun r => (r.spec.cpu, r.spec.memory)) =
      [(vcpus cd rd, memory cd rd)] := by
  refine ⟨?_, ?_, ?_, ?_, ?_, ?_, rfl⟩
  · intro n hn hnz
    unfold vcpus pyOrI
    rw [hn]
    simp [pyTruthyI, hnz]
  · intro v hv hf
    unfold vcpus pyOrI
    rw [hf, hv]
    simp [getKeyD]
  · intro hv hf
    unfold vcpus pyOrI
    rw [hf, hv]
    simp [getKeyD]
  · intro s hs hne
    unfold memory pyOrS'
    rw [hs]
    simp [pyTruthyS, hne]
  · intro v hv hf
    unfold memory pyOrS'
    rw [hf, hv]
    simp [getKeyD]
  · intro hv hf
    unfold memory pyOrS'
    rw [hf, hv]
    simp [getKeyD]

/-- Witness for C6: the hard defaults with no runtime document, plus a
container override and a runtime default each taking effect. -/
theorem c6_vcpu_memory_defaults_witness :
    vcpus cdEmpty none = some 2 ∧
    memory cdEmpty none = some "2Gi" ∧
    vcpus cdVcpu rdVcpu = some 4 ∧
    memory cdVcpu rdVcpu = some "8Gi" ∧
    vcpus cdEmpty rdVcpu = some 6 := by
  refine ⟨?_, ?_, ?_, ?_, ?_⟩
  · exact (c6_vcpu_memory_defaults cdEmpty none).2.2.1 rfl rfl
  · exact (c6_vcpu_memory_defaults cdEmpty none).2.2.2.2.2.1 rfl rfl
  · exact (c6_vcpu_memory_defaults cdVcpu rdVcpu).1 4 rfl (by decide)
  · exact (c6_vcpu_memory_defaults cdVcpu rdVcpu).2.2.2.1 "8Gi" rfl (by decide)
  · exact (c6_vcpu_memory_defaults cdEmpty rdVcpu).2.1 (some 6) rfl rfl

/-- C10: every disk default is applied per missing key of the merged disk
mapping — name `rootdisk`, format `raw`, boot capacity `40Gi`, and a null
asset url when neither image field exists; and a key is missing from the
merged mapping exactly when neither input mapping has it. -/
theorem c10_disk_asset_defaults (cd : ContainerDef) (rd : RuntimeDef) :
    (dget (merged_disk cd rd) "name" = none → disk_name cd rd = "rootdisk") ∧
    (dget (merged_disk cd rd) "format" = none → disk_format cd rd = "raw") ∧
    (dget (merged_disk cd rd) "capacity" = none → disk_capacity cd rd = "40Gi") ∧
    (dget (merged_disk cd rd) "imageUrl" = none → dget (merged_disk cd rd) "url" = none →
      disk_image cd rd = none) ∧
    (∀ k, dget cd.spec.runtime.disk k = none → dget (runtime_defaults rd).disk k = none →
      dget (merged_disk cd rd) k = none) ∧
    (to_application cd rd).spec.assets =
      [{ name := disk_name cd rd, type := "virtual_disk", format := disk_format cd rd,
         url := disk_image cd rd }] ∧
    (to_application cd rd).spec.resources.map (fun r => r.spec.storage_devices) =
      [[{ name := "bootdisk", type := "virtio_disk", source := disk_name cd rd,
          boot := 1, capacity := disk_capacity cd rd }]] := by
  refine ⟨?_, ?_, ?_, ?_, ?_, rfl, rfl⟩
  · intro h
    unfold disk_name dgetD
    rw [h]
    rfl
  · intro h
    unfold disk_format dgetD
    rw [h]
    rfl
  · intro h
    unfold disk_capacity dgetD
    rw [h]
    rfl
  · intro h1 h2
    unfold disk_image pyOrS
    rw [h1, h2]
    rfl
  · intro k h1 h2
    unfold merged_disk
    rw [dget_append_eq, h1, h2]
    rfl

/-- Witness for C10: with no disk configuration anywhere, the compiled
manifest uses all four defaults. -/
theorem c10_disk_asset_defaults_witness :
    disk_name cdEmpty none = "rootdisk" ∧
    disk_format cdEmpty none = "raw" ∧
    disk_capacity cdEmpty none = "40Gi" ∧
    disk_image cdEmpty none = none := by
  obtain ⟨h1, h2, h3, h4, _, _, _⟩ := c10_disk_asset_defaults cdEmpty none
  exact ⟨h1 rfl, h2 rfl, h3 rfl, h4 rfl rfl⟩

/-- C9: compilation is deterministic and re-running it changes nothing: a
second batch run over the same unchanged inputs, starting from the output
directory the first run produced, writes the same manifest value at every
path and reports the same count and summary.  Each written manifest is a
pure function of the two parsed input documents, so the serialized bytes of
equal manifest values are identical. -/
theorem c9_recompile_idempotent (st : List (String × Application))
    (files : List (String × Except Unit ContainerDef)) (rd : RuntimeDef) :
    (runBatch (runBatch st files rd).outputs files rd).compiled =
      (runBatch st files rd).compiled ∧
    (runBatch (runBatch st files rd).outputs files rd).summary =
      (runBatch st files rd).summary ∧
    (runBatch (runBatch st files rd).outputs files rd).aborted =
      (runBatch st files rd).aborted ∧
    ∀ k, dget (runBatch (runBatch st files rd).outputs files rd).outputs k =
      dget (runBatch st files rd).outputs k := by
  refine ⟨?_, ?_, ?_, ?_⟩
  · exact (runBatchAux_summary_st rd files _ st 0).2.1
  · exact (runBatchAux_summary_st rd files _ st 0).1
  · exact (runBatchAux_summary_st rd files _ st 0).2.2
  · intro k
    show dget (runBatchAux rd files (runBatchAux rd files st 0).outputs 0).outputs k =
      dget (runBatchAux rd files st 0).outputs k
    rw [runBatchAux_outputs, runBatchAux_outputs]
    rw [dget_append, dget_append]
    cases h : dget (writesOf rd files) k <;> simp [h]

/-- C7: the guest-agent lines are exactly the policy-gated tail of the
script.  With `setupQemuGuestAgent` false the output equals the ungated
script and contains no guest-agent install/enable/reboot command; with it
true every guest-agent line is present; the `reboot` line appears only when
`rebootAfterQga` is also true, and then as the very last entry. -/
theorem c7_policy_gating (cs : List ContainerCfg) (ct : List ContentItem)
    (ci : CloudInit) (pol : Policies) :
    userDataLines cs ct ci pol =
      userDataLines cs ct ci (polOff pol) ++
        qgaTail (resolvedFlag pol.setupQemuGuestAgent) (resolvedFlag pol.rebootAfterQga) ∧
    (resolvedFlag pol.setupQemuGuestAgent = false →
      ∀ l ∈ userDataLines cs ct ci pol, qgaMarkerFree l) ∧
    (resolvedFlag pol.setupQemuGuestAgent = true →
      ∀ l ∈ qgaCmds, l ∈ userDataLines cs ct ci pol) ∧
    (resolvedFlag pol.setupQemuGuestAgent = true →
      resolvedFlag pol.rebootAfterQga = false →
      "  - reboot" ∉ userDataLines cs ct ci pol) ∧
    (resolvedFlag pol.setupQemuGuestAgent = true →
      resolvedFlag pol.rebootAfterQga = true →
      (userDataLines cs ct ci pol).getLast? = some "  - reboot") := by
  have hoff : resolvedFlag (polOff pol).setupQemuGuestAgent = false := rfl
  have heq : userDataLines cs ct ci pol =
      userDataLines cs ct ci (polOff pol) ++
        qgaTail (resolvedFlag pol.setupQemuGuestAgent) (resolvedFlag pol.rebootAfterQga) := by
    unfold userDataLines qgaTail polOff
    simp only [resolvedFlag, Option.getD_some]
    simp [List.append_assoc]
  refine ⟨heq, ?_, ?_, ?_, ?_⟩
  · exact fun hs => userDataLines_markerFree cs ct ci pol hs
  · intro hs l hl
    rw [heq, hs]
    apply List.mem_append_right
    unfold qgaTail
    rw [if_pos rfl]
    exact List.mem_append_left _ hl
  · intro hs hr hmem
    rw [heq, hs, hr] at hmem
    rcases List.mem_append.mp hmem with h | h
    · exact (userDataLines_markerFree cs ct ci (polOff pol) hoff _ h).2.2 rfl
    · unfold qgaTail at h
      rw [if_pos rfl] at h
      rcases List.mem_append.mp h with h | h
      · exact absurd h (by decide)
      · simp at h
  · intro hs hr
    rw [heq, hs, hr]
    exact getLast?_append_some _ _ _ (by decide)

/-- Witness for C7: the default policies put `reboot` last; disabling the
reboot keeps the rest of the guest-agent block but drops the `reboot` line;
disabling the setup drops the whole block. -/
theorem c7_policy_gating_witness :
    (userDataLines [] [] [] ({} : Policies)).getLast? = some "  - reboot" ∧
    ("  - reboot" ∉ userDataLines [] [] [] polNoReboot) ∧
    ("  - systemctl enable enable-qemu-guest-agent.service || true" ∈
      userDataLines [] [] [] polNoReboot) ∧
    ("  - reboot" ∉ userDataLines [] [] [] polNoQga) := by
  refine ⟨?_, ?_, ?_, ?_⟩
  · exact (c7_policy_gating [] [] [] {}).2.2.2.2 rfl rfl
  · exact (c7_policy_gating [] [] [] polNoReboot).2.2.2.1 rfl rfl
  · exact (c7_policy_gating [] [] [] polNoReboot).2.2.1 rfl _ (by decide)
  · intro hmem
    exact ((c7_policy_gating [] [] [] polNoQga).2.1 rfl _ hmem).2.2 rfl

/-- Shape of the joined script for valid inputs: header plus newline at the
start, exactly one newline at the end, and newline-free lines. -/
theorem cq_user_data_shape (cs : List ContainerCfg) (ct : List ContentItem)
    (ci : CloudInit) (pol : Policies)
    (hc : ∀ c ∈ cs, ValidContainer c) (hct : ∀ it ∈ ct, ValidContent it)
    (hci : ValidCI ci) :
    (container_quadlet_user_data cs ct ci pol).data.take 14 = "#cloud-config\n".data ∧
    (container_quadlet_user_data cs ct ci pol).data.getLast? = some '\n' ∧
    (container_quadlet_user_data cs ct ci pol).data.dropLast.getLast? ≠ some '\n' ∧
    ∀ l ∈ userDataLines cs ct ci pol, NoNL l := by
  refine ⟨?_, ?_, ?_, userDataLines_noNL cs ct ci pol hc hct hci⟩
  · obtain ⟨t, heq, htne⟩ := userDataLines_head cs ct ci pol
    unfold container_quadlet_user_data
    rw [heq]
    have h14 : "#cloud-config".data.length + 1 = 14 := by decide
    rw [← h14, joinNl_head_take _ t htne]
    decide
  · unfold container_quadlet_user_data
    rw [String.data_append]
    exact getLast?_append_some _ _ _ (by decide)
  · unfold container_quadlet_user_data
    rw [String.data_append]
    have hnl : "\n".data = ['\n'] := rfl
    rw [hnl, List.dropLast_concat]
    obtain ⟨s, hlast, hne, hch⟩ := userDataLines_last cs ct ci pol
    rw [joinNl_getLast _ s hlast hne]
    exact hch

/-- C8: for every valid input pair the embedded `user_data` text is the
generator's output, starts with the `#cloud-config` line, ends with exactly
one trailing newline, and no generated line contains an embedded newline. -/
theorem c8_user_data_text (cd : ContainerDef) (rd : RuntimeDef)
    (h : ValidPair cd rd) :
    (to_application cd rd).spec.resources.map
        (fun r => r.spec.cloud_init_data.user_data) =
      [container_quadlet_user_data cd.spec.containers cd.spec.content
        (merged_cloud_init cd rd) (policiesOf rd)] ∧
    (container_quadlet_user_data cd.spec.containers cd.spec.content
        (merged_cloud_init cd rd) (policiesOf rd)).data.take 14 =
      "#cloud-config\n".data ∧
    (container_quadlet_user_data cd.spec.containers cd.spec.content
        (merged_cloud_init cd rd) (policiesOf rd)).data.getLast? = some '\n' ∧
    (container_quadlet_user_data cd.spec.containers cd.spec.content
        (merged_cloud_init cd rd) (policiesOf rd)).data.dropLast.getLast? ≠
      some '\n' ∧
    ∀ l ∈ userDataLines cd.spec.containers cd.spec.content
        (merged_cloud_init cd rd) (policiesOf rd), NoNL l := by
  obtain ⟨h1, h2, h3, h4, h5⟩ := h
  have hci := merged_cloud_init_valid cd rd ⟨h1, h2, h3, h4, h5⟩
  obtain ⟨t1, t2, t3, t4⟩ :=
    cq_user_data_shape cd.spec.containers cd.spec.content
      (merged_cloud_init cd rd) (policiesOf rd) h1 h2 hci
  exact ⟨rfl, t1, t2, t3, t4⟩

/-- Witness for C8 at the demo document with no runtime configuration. -/
theorem c8_user_data_text_witness :
    (to_application cdDemo none).spec.resources.map
        (fun r => r.spec.cloud_init_data.user_data) =
      [container_quadlet_user_data cdDemo.spec.containers cdDemo.spec.content
        (merged_cloud_init cdDemo none) (policiesOf none)] ∧
    (container_quadlet_user_data cdDemo.spec.containers cdDemo.spec.content
        (merged_cloud_init cdDemo none) (policiesOf none)).data.take 14 =
      "#cloud-config\n".data ∧
    (container_quadlet_user_data cdDemo.spec.containers cdDemo.spec.content
        (merged_cloud_init cdDemo none) (policiesOf none)).data.getLast? = some '\n' ∧
    (container_quadlet_user_data cdDemo.spec.containers cdDemo.spec.content
        (merged_cloud_init cdDemo none) (policiesOf none)).data.dropLast.getLast? ≠
      some '\n' ∧
    ∀ l ∈ userDataLines cdDemo.spec.containers cdDemo.spec.content
        (merged_cloud_init cdDemo none) (policiesOf none), NoNL l :=
  c8_user_data_text cdDemo none (by decide)
